import Mathlib

set_option maxHeartbeats 1000000

/-! Verification of the ml-agent schema discovery and caching engine.

The development shallowly embeds the schema cache (src/lib/cache.ts), the
schema resolver (src/lib/schema-resolver.ts), the compact-item extractors of
the items commands (src/commands/items.ts) and the configuration helper
resolveSchemaPath (src/lib/config.ts).  File-system reads/writes and remote
calls are modelled by explicit oracle environments, and each operation
additionally returns the list of effects it performed, so ordering claims
become statements about traces. -/

/-- A select-option choice stored on a column: canonical value plus display label. -/
structure Choice where
  value : String
  label : String
deriving DecidableEq, Repr

/-- Options attached to a select-like column. -/
structure ColumnOptions where
  choices : List Choice
deriving DecidableEq, Repr

/-- A column of a list schema, as persisted in the cache file
(id, key, name, type, optional options). -/
structure Column where
  id : String
  key : String
  name : String
  type : String
  options : Option ColumnOptions := none
deriving DecidableEq, Repr

/-- A list schema: the ListSchema shape persisted by the cache. -/
structure Schema where
  list_id : String
  columns : List Column
deriving DecidableEq, Repr

/-- Modelled from the spec: mergeSchemas lives in src/lib/schema.ts, which is not
among the provided sources (only its callers are).  Spec section 4.2 fixes its
semantics: union of columns by id; on id collision the existing (previously
recorded) column definition wins; new columns from the candidate are appended
after existing ones, preserving existing order. -/
def mergeSchemas (existing candidate : Schema) : Schema :=
  { list_id := existing.list_id
    columns := existing.columns ++
      candidate.columns.filter
        (fun c => !(existing.columns.any (fun c0 => c0.id == c.id))) }

/-- Modelled from the spec: updateSchemaCache merges a possibly-absent cached
schema with a candidate; with no cached schema the candidate is used as is. -/
def mergeSchemasOpt : Option Schema → Schema → Schema
  | none, c => c
  | some e, c => mergeSchemas e c

/-- First column of a schema carrying the given id. -/
def lookupById (s : Schema) (i : String) : Option Column :=
  s.columns.find? (fun c => c.id == i)

/-- C2: mergeSchemas is the union of the two column lists keyed by id; every id
already present in the existing schema keeps the existing definition unchanged
(its type and options included, whatever the candidate says); the existing
columns stay an unchanged ordered front segment of the result and the columns
appended after them are exactly the candidate columns whose id is new. -/
theorem C2_merge_union_existing_wins (A B : Schema) :
    (∀ i c, lookupById A i = some c → lookupById (mergeSchemas A B) i = some c) ∧
    ((mergeSchemas A B).columns.take A.columns.length = A.columns) ∧
    (∀ i, (∃ c ∈ (mergeSchemas A B).columns, c.id = i) ↔
      ((∃ c ∈ A.columns, c.id = i) ∨ (∃ c ∈ B.columns, c.id = i))) ∧
    ((mergeSchemas A B).columns.drop A.columns.length =
      B.columns.filter (fun c => !(A.columns.any (fun c0 => c0.id == c.id)))) := by
  refine ⟨?_, ?_, ?_, ?_⟩
  · intro i c h
    unfold lookupById at *
    unfold mergeSchemas
    simp only [List.find?_append]
    rw [h]
    rfl
  · unfold mergeSchemas
    simp [List.take_left]
  · intro i
    unfold mergeSchemas
    constructor
    · rintro ⟨c, hc, hid⟩
      simp only [List.mem_append, List.mem_filter] at hc
      rcases hc with hA | ⟨hB, _⟩
      · exact Or.inl ⟨c, hA, hid⟩
      · exact Or.inr ⟨c, hB, hid⟩
    · rintro (⟨c, hc, hid⟩ | ⟨c, hc, hid⟩)
      · exact ⟨c, by simp [List.mem_append, hc], hid⟩
      · by_cases hany : A.columns.any (fun c0 => c0.id == c.id) = true
        · rw [List.any_eq_true] at hany
          obtain ⟨c0, hc0, hbeq⟩ := hany
          refine ⟨c0, by simp [List.mem_append, hc0], ?_⟩
          rw [beq_iff_eq] at hbeq
          rw [hbeq, hid]
        · refine ⟨c, ?_, hid⟩
          simp only [List.mem_append, List.mem_filter]
          right
          exact ⟨hc, by simp [hany]⟩
  · unfold mergeSchemas
    simp [List.drop_left]

/-- C9: merging the result of a merge back into the same receiving schema is a
fixed point: merge(A, merge(A, B)) = merge(A, B). -/
theorem C9_merge_idempotent (A B : Schema) :
    mergeSchemas A (mergeSchemas A B) = mergeSchemas A B := by
  unfold mergeSchemas
  simp only [Schema.mk.injEq, true_and]
  rw [List.filter_append]
  have h1 : A.columns.filter
      (fun c => !(A.columns.any (fun c0 => c0.id == c.id))) = [] := by
    rw [List.filter_eq_nil_iff]
    intro c hc
    have hmem : (A.columns.any (fun c0 => c0.id == c.id)) = true :=
      List.any_eq_true.mpr ⟨c, hc, by simp⟩
    simp [hmem]
  have h2 : (B.columns.filter
        (fun c => !(A.columns.any (fun c0 => c0.id == c.id)))).filter
      (fun c => !(A.columns.any (fun c0 => c0.id == c.id))) =
      B.columns.filter (fun c => !(A.columns.any (fun c0 => c0.id == c.id))) := by
    rw [List.filter_eq_self]
    intro c hc
    exact (List.mem_filter.mp hc).2
  rw [h1, h2]
  simp

/-- Untyped JS error as the code inspects it: an optional file-system error
code (error.code) and an optional Slack API error classification
(error.data.error). -/
structure JsError where
  code : Option String := none
  slackData : Option String := none
deriving DecidableEq, Repr

deriving instance DecidableEq for Except

/-- State of the two cache files for one list id: the result that reading plus
JSON-parsing the canonical path and the legacy path would produce.  An error
whose code is ENOENT is a missing file; a parse failure carries no code. -/
structure FsState where
  canonical : Except JsError Schema
  legacy : Except JsError Schema
deriving DecidableEq, Repr

/-- Read events of loadCachedSchema: which cache path was read, in order. -/
inductive RdEv
  | readCanonical
  | readLegacy
deriving DecidableEq, Repr

/-- ENOENT test performed by the catch blocks of loadCachedSchema. -/
def isEnoent (e : JsError) : Bool := e.code == some "ENOENT"

/-- loadCachedSchema (src/lib/cache.ts): read and parse the canonical path; if
that fails with ENOENT, read and parse the legacy path; if that also fails with
ENOENT return the no-schema sentinel; any other failure of either read is
rethrown.  The second component lists the reads performed, in order. -/
def loadCachedSchemaT (fs : FsState) : Except JsError (Option Schema) × List RdEv :=
  match fs.canonical with
  | .ok s => (.ok (some s), [.readCanonical])
  | .error e =>
    if isEnoent e then
      match fs.legacy with
      | .ok s => (.ok (some s), [.readCanonical, .readLegacy])
      | .error le =>
        if isEnoent le then (.ok none, [.readCanonical, .readLegacy])
        else (.error le, [.readCanonical, .readLegacy])
    else (.error e, [.readCanonical])

/-- Result component of loadCachedSchema. -/
def loadCachedSchema (fs : FsState) : Except JsError (Option Schema) :=
  (loadCachedSchemaT fs).1

/-- loadCachedSchema as a state transformer: the source function performs no
write (fs.writeFile appears only in saveSchemaCache), so the file state it
leaves behind is its input unchanged. -/
def loadCachedSchemaST (fs : FsState) : Except JsError (Option Schema) × FsState :=
  (loadCachedSchema fs, fs)

/-- Modelled from the spec: the claimed variant of loadCachedSchema in which a
schema found only at the legacy path is upgraded by writing it to the canonical
path, so that a subsequent load would read it from the canonical path. -/
def loadCachedSchemaClaimed (fs : FsState) :
    Except JsError (Option Schema) × FsState :=
  match fs.canonical with
  | .ok s => (.ok (some s), fs)
  | .error e =>
    if isEnoent e then
      match fs.legacy with
      | .ok s => (.ok (some s), { fs with canonical := .ok s })
      | .error le =>
        if isEnoent le then (.ok none, fs) else (.error le, fs)
    else (.error e, fs)

/-- saveSchemaCache (src/lib/cache.ts): write the schema to the canonical path.
The wk oracle is the outcome the file system gives this write: some e means the
mkdir or writeFile throws e, none means the write succeeds and the canonical
path afterwards holds the schema. -/
def saveSchemaCacheE (wk : Option JsError) (fs : FsState) (s : Schema) :
    Except JsError FsState :=
  match wk with
  | some e => .error e
  | none => .ok { fs with canonical := .ok s }

/-- Effects of the schema resolver, in execution order: a schema-file load, a
cache read, a successful cache write, a remote call. -/
inductive Ev
  | fileLoad (p : String)
  | cacheRead
  | cacheWrite (s : Schema)
  | call (method : String)
deriving DecidableEq, Repr

/-- updateSchemaCache (src/lib/cache.ts): load the cached schema (possibly
none), merge the candidate into it, save the merge, return it.  Failures of the
load and of the save propagate.  The trace records the cache read and, when the
save succeeds, the write. -/
def updateSchemaCacheT (wk : Option JsError) (fs : FsState) (candidate : Schema) :
    Except JsError (Schema × FsState) × List Ev :=
  match (loadCachedSchemaT fs).1 with
  | .error e => (.error e, [.cacheRead])
  | .ok cached =>
    let merged := mergeSchemasOpt cached candidate
    match saveSchemaCacheE wk fs merged with
    | .error e => (.error e, [.cacheRead])
    | .ok fs2 => (.ok (merged, fs2), [.cacheRead, .cacheWrite merged])

/-- Concrete schema used in witnesses. -/
def exSchema : Schema :=
  { list_id := "L1"
    columns := [{ id := "c1", key := "Status", name := "State", type := "select" }] }

/-- Concrete second schema used in witnesses. -/
def exSchema2 : Schema :=
  { list_id := "L1"
    columns := [{ id := "c2", key := "Owner", name := "Owner", type := "user" }] }

/-- The missing-file error. -/
def enoentErr : JsError := { code := some "ENOENT" }

/-- Cache state with no file at either path. -/
def fsEmpty : FsState := { canonical := .error enoentErr, legacy := .error enoentErr }

/-- Cache state whose canonical file is absent while the legacy file holds
exSchema. -/
def fsLegacyOnly : FsState := { canonical := .error enoentErr, legacy := .ok exSchema }

/-- C4: loadCachedSchema reads the canonical path first; only when that read
fails with ENOENT does it read the legacy path; when both are absent it returns
the no-schema sentinel rather than an error; and any failure other than ENOENT
of either read propagates. -/
theorem C4_load_cache_fallback (fs : FsState) :
    (∀ s, fs.canonical = .ok s →
      loadCachedSchemaT fs = (.ok (some s), [.readCanonical])) ∧
    (∀ e s, fs.canonical = .error e → isEnoent e = true → fs.legacy = .ok s →
      loadCachedSchemaT fs = (.ok (some s), [.readCanonical, .readLegacy])) ∧
    (∀ e le, fs.canonical = .error e → isEnoent e = true → fs.legacy = .error le →
      isEnoent le = true →
      loadCachedSchemaT fs = (.ok none, [.readCanonical, .readLegacy])) ∧
    (∀ e, fs.canonical = .error e → isEnoent e = false →
      loadCachedSchemaT fs = (.error e, [.readCanonical])) ∧
    (∀ e le, fs.canonical = .error e → isEnoent e = true → fs.legacy = .error le →
      isEnoent le = false →
      loadCachedSchemaT fs = (.error le, [.readCanonical, .readLegacy])) := by
  refine ⟨?_, ?_, ?_, ?_, ?_⟩
  · intro s h
    unfold loadCachedSchemaT
    rw [h]
  · intro e s hc he hl
    unfold loadCachedSchemaT
    rw [hc, hl]
    simp [he]
  · intro e le hc he hl hle
    unfold loadCachedSchemaT
    rw [hc, hl]
    simp [he, hle]
  · intro e hc he
    unfold loadCachedSchemaT
    rw [hc]
    simp [he]
  · intro e le hc he hl hle
    unfold loadCachedSchemaT
    rw [hc, hl]
    simp [he, hle]

/-- C4 witness: on the concrete legacy-only state the canonical read fails with
ENOENT, the legacy read succeeds, and the load returns the legacy schema after
reading both paths in order. -/
theorem C4_load_cache_fallback_witness :
    fsLegacyOnly.canonical = .error enoentErr ∧ isEnoent enoentErr = true ∧
    fsLegacyOnly.legacy = .ok exSchema ∧
    loadCachedSchemaT fsLegacyOnly =
      (.ok (some exSchema), [.readCanonical, .readLegacy]) :=
  ⟨rfl, by decide, rfl,
    (C4_load_cache_fallback fsLegacyOnly).2.1 enoentErr exSchema rfl (by decide) rfl⟩

/-- C5 counterexample: with the schema present only at the legacy path, the
load succeeds but leaves the file state unchanged - the canonical path is still
absent afterwards, and a subsequent load again reads the legacy path - whereas
the claimed upgrade behaviour would have written the schema to the canonical
path. -/
theorem C5_counterexample :
    loadCachedSchemaST fsLegacyOnly = (.ok (some exSchema), fsLegacyOnly) ∧
    (loadCachedSchemaST fsLegacyOnly).2.canonical = .error enoentErr ∧
    (loadCachedSchemaT (loadCachedSchemaST fsLegacyOnly).2).2 =
      [.readCanonical, .readLegacy] ∧
    (loadCachedSchemaClaimed fsLegacyOnly).2.canonical = .ok exSchema := by
  refine ⟨rfl, rfl, rfl, rfl⟩

/-- C5 amended: when a schema is found only at the legacy cache path, loading
returns it but performs no upgrade write: the file state is unchanged, so a
subsequent load reads it from the legacy path again. -/
theorem C5_no_legacy_upgrade (fs : FsState) (e : JsError) (s : Schema)
    (hc : fs.canonical = .error e) (he : isEnoent e = true) (hl : fs.legacy = .ok s) :
    loadCachedSchemaST fs = (.ok (some s), fs) ∧
    (loadCachedSchemaT ((loadCachedSchemaST fs).2)).2 =
      [.readCanonical, .readLegacy] := by
  have hload := (C4_load_cache_fallback fs).2.1 e s hc he hl
  constructor
  · unfold loadCachedSchemaST loadCachedSchema
    rw [hload]
  · unfold loadCachedSchemaST
    rw [hload]

/-- C5 amended witness: concrete legacy-only state, load returns the legacy
schema with the state unchanged and the follow-up load reads both paths. -/
theorem C5_no_legacy_upgrade_witness :
    fsLegacyOnly.canonical = .error enoentErr ∧ isEnoent enoentErr = true ∧
    fsLegacyOnly.legacy = .ok exSchema ∧
    (loadCachedSchemaST fsLegacyOnly = (.ok (some exSchema), fsLegacyOnly) ∧
      (loadCachedSchemaT ((loadCachedSchemaST fsLegacyOnly).2)).2 =
        [.readCanonical, .readLegacy]) :=
  ⟨rfl, by decide, rfl, C5_no_legacy_upgrade fsLegacyOnly enoentErr exSchema rfl (by decide) rfl⟩

/-- Result of the slackLists.info describe call: the ok flag the code checks
plus an opaque payload handed to normalizeSchema. -/
structure DescribeRes where
  ok : Bool
  payload : String
deriving DecidableEq, Repr

/-- A sampled item as the resolver inspects it: an optional id.  Further field
content is consumed only by the abstract inference oracle. -/
structure Item where
  id : Option String := none
deriving DecidableEq, Repr

/-- Result of slackLists.items.list: an optional items array. -/
structure ItemsListRes where
  items : Option (List Item) := none
deriving DecidableEq, Repr

/-- Opaque list metadata embedded in an item-detail response. -/
structure ListMeta where
  payload : String
deriving DecidableEq, Repr

/-- The list object of a slackLists.items.info response. -/
structure ListInfo where
  list_metadata : Option ListMeta := none
  id : Option String := none
deriving DecidableEq, Repr

/-- Result of slackLists.items.info as the resolver reads it. -/
structure InfoRes where
  list : Option ListInfo := none
deriving DecidableEq, Repr

/-- Modelled from the spec: buildSchemaIndex lives in src/lib/schema.ts, which
is absent from the sources.  Spec section 3: a Schema Index is a Schema plus
derived lookup maps by id, lowercased key, lowercased name and type, built
fresh from the schema. -/
structure SchemaIndex where
  schema : Schema
  byId : List (String × Column)
  byKey : List (String × Column)
  byName : List (String × Column)
  byType : List (String × Column)
deriving DecidableEq, Repr

/-- Modelled from the spec: build the lookup maps of a Schema Index from a
schema (spec section 3 and 4.1). -/
def buildSchemaIndex (s : Schema) : SchemaIndex :=
  { schema := s
    byId := s.columns.map (fun c => (c.id, c))
    byKey := s.columns.map (fun c => (c.key.toLower, c))
    byName := s.columns.map (fun c => (c.name.toLower, c))
    byType := s.columns.map (fun c => (c.type, c)) }

/-- resolveSchemaPath (src/lib/config.ts): the CLI-provided path when not
nullish, else the SLACK_LIST_SCHEMA_PATH environment variable. -/
def resolveSchemaPath (cliPath envPath : Option String) : Option String :=
  match cliPath with
  | some p => some p
  | none => envPath

/-- JS truthiness of an optional string: some value exactly when the value is
present and nonempty. -/
def truthyStr : Option String → Option String
  | some p => if p = "" then none else some p
  | none => none

/-- Oracle environment for one run of resolveSchemaIndex: its arguments, the
environment variable, and the outcome of every external interaction the run
may perform.  The helpers of the missing src/lib/schema.ts module
(loadSchemaFromFile, normalizeSchema, inferSchemaFromItems) are abstract
oracle functions. -/
structure REnv where
  listId : String
  cliPath : Option String := none
  envPath : Option String := none
  refreshCache : Bool := false
  loadSchemaFromFile : String → Except JsError Schema
  fs : FsState
  writeErr : Option JsError := none
  describeRes : Except JsError DescribeRes
  itemsListRes : Except JsError ItemsListRes
  itemsInfoRes : Except JsError InfoRes
  normalizeDescribe : DescribeRes → Schema
  normalizeMeta : ListMeta → String → Schema
  inferSchemaFromItems : List Item → Schema

/-- Outcome of a resolver run: result, effect trace, final cache state. -/
abbrev RunOut := Except JsError (Option SchemaIndex) × List Ev × FsState

/-- Inference tier of resolveSchemaIndex (src/lib/schema-resolver.ts lines
199-204): infer a schema from the sampled items; with zero columns resolve to
the no-schema result; otherwise merge it into the cache via updateSchemaCache
and index the merge.  A failure raised here reaches the catch of the
surrounding items try-block, which swallows only the unknown_method
classification. -/
def resolverInference (env : REnv) (tr : List Ev) (items : List Item) : RunOut :=
  let inferred := env.inferSchemaFromItems items
  if inferred.columns.isEmpty then (.ok none, tr, env.fs)
  else
    match updateSchemaCacheT env.writeErr env.fs inferred with
    | (.ok (merged, fs2), evs) => (.ok (some (buildSchemaIndex merged)), tr ++ evs, fs2)
    | (.error e, evs) =>
      if e.slackData == some "unknown_method" then (.ok none, tr ++ evs, env.fs)
      else (.error e, tr ++ evs, env.fs)

/-- Sample-item tier of resolveSchemaIndex (lines 168-204): list one page of
items; when the first item has a truthy id, fetch its detail and, when the
response embeds list metadata, normalize, persist and return its index.  The
inner catch rethrows only failures carrying a Slack classification other than
unknown_method - those then also pass the outer catch and propagate - while
every other failure of the detail step falls through to inference. -/
def resolverSampleTier (env : REnv) (tr : List Ev) : RunOut :=
  let tr2 := tr ++ [Ev.call "slackLists.items.list"]
  match env.itemsListRes with
  | .error e =>
    if e.slackData == some "unknown_method" then (.ok none, tr2, env.fs)
    else (.error e, tr2, env.fs)
  | .ok lr =>
    let items := lr.items.getD []
    match truthyStr (items.head?.bind Item.id) with
    | some _ =>
      let tr3 := tr2 ++ [Ev.call "slackLists.items.info"]
      match env.itemsInfoRes with
      | .ok ir =>
        match ir.list with
        | some l =>
          match l.list_metadata with
          | some meta =>
            let s := env.normalizeMeta meta (l.id.getD env.listId)
            match saveSchemaCacheE env.writeErr env.fs s with
            | .ok fs2 => (.ok (some (buildSchemaIndex s)), tr3 ++ [Ev.cacheWrite s], fs2)
            | .error e =>
              if e.slackData.isSome && !(e.slackData == some "unknown_method") then
                (.error e, tr3, env.fs)
              else resolverInference env tr3 items
          | none => resolverInference env tr3 items
        | none => resolverInference env tr3 items
      | .error e =>
        if e.slackData.isSome && !(e.slackData == some "unknown_method") then
          (.error e, tr3, env.fs)
        else resolverInference env tr3 items
    | none => resolverInference env tr2 items

/-- Describe tier of resolveSchemaIndex (lines 154-166): call slackLists.info;
on an ok response normalize, persist and return its index; a thrown failure
classified unknown_method falls through, any other thrown failure propagates;
a non-ok response without a throw also falls through. -/
def resolverDescribeTier (env : REnv) (tr : List Ev) : RunOut :=
  let tr1 := tr ++ [Ev.call "slackLists.info"]
  match env.describeRes with
  | .ok r =>
    if r.ok then
      let s := env.normalizeDescribe r
      match saveSchemaCacheE env.writeErr env.fs s with
      | .ok fs2 => (.ok (some (buildSchemaIndex s)), tr1 ++ [Ev.cacheWrite s], fs2)
      | .error e =>
        if e.slackData == some "unknown_method" then resolverSampleTier env tr1
        else (.error e, tr1, env.fs)
    else resolverSampleTier env tr1
  | .error e =>
    if e.slackData == some "unknown_method" then resolverSampleTier env tr1
    else (.error e, tr1, env.fs)

/-- resolveSchemaIndex (src/lib/schema-resolver.ts lines 135-213): ordered
fallback chain over override file, cache, remote describe, sample-item
metadata and inference, returning the result, the effect trace and the final
cache state. -/
def resolveSchemaIndex (env : REnv) : RunOut :=
  match truthyStr (resolveSchemaPath env.cliPath env.envPath) with
  | some p =>
    match env.loadSchemaFromFile p with
    | .ok s => (.ok (some (buildSchemaIndex s)), [Ev.fileLoad p], env.fs)
    | .error e => (.error e, [Ev.fileLoad p], env.fs)
  | none =>
    if env.refreshCache then resolverDescribeTier env []
    else
      match loadCachedSchema env.fs with
      | .error e => (.error e, [Ev.cacheRead], env.fs)
      | .ok (some s) => (.ok (some (buildSchemaIndex s)), [Ev.cacheRead], env.fs)
      | .ok none => resolverDescribeTier env [Ev.cacheRead]

/-- Describe tier on an ok response with a successful write: persist the
normalization and return its index. -/
theorem describeTier_ok_eq (env : REnv) (tr : List Ev) (r : DescribeRes)
    (hd : env.describeRes = .ok r) (hok : r.ok = true) (hw : env.writeErr = none) :
    resolverDescribeTier env tr =
      (.ok (some (buildSchemaIndex (env.normalizeDescribe r))),
       tr ++ [Ev.call "slackLists.info", Ev.cacheWrite (env.normalizeDescribe r)],
       { env.fs with canonical := .ok (env.normalizeDescribe r) }) := by
  unfold resolverDescribeTier
  rw [hd]
  simp [hok, saveSchemaCacheE, hw]

/-- Describe tier on a thrown unknown_method failure: fall through. -/
theorem describeTier_fall_err (env : REnv) (tr : List Ev) (e : JsError)
    (hd : env.describeRes = .error e) (he : e.slackData = some "unknown_method") :
    resolverDescribeTier env tr =
      resolverSampleTier env (tr ++ [Ev.call "slackLists.info"]) := by
  unfold resolverDescribeTier
  rw [hd]
  simp [he]

/-- Describe tier on a non-ok response: fall through. -/
theorem describeTier_fall_notok (env : REnv) (tr : List Ev) (r : DescribeRes)
    (hd : env.describeRes = .ok r) (hok : r.ok = false) :
    resolverDescribeTier env tr =
      resolverSampleTier env (tr ++ [Ev.call "slackLists.info"]) := by
  unfold resolverDescribeTier
  rw [hd]
  simp [hok]

/-- Describe tier on any other thrown failure: fatal. -/
theorem describeTier_fatal (env : REnv) (tr : List Ev) (e : JsError)
    (hd : env.describeRes = .error e) (he : e.slackData ≠ some "unknown_method") :
    resolverDescribeTier env tr =
      (.error e, tr ++ [Ev.call "slackLists.info"], env.fs) := by
  unfold resolverDescribeTier
  rw [hd]
  simp [he]

/-- Entry into the describe tier: no truthy override path and either a forced
refresh or a cache miss. -/
theorem resolver_to_describe (env : REnv)
    (hp : truthyStr (resolveSchemaPath env.cliPath env.envPath) = none)
    (hc : env.refreshCache = true ∨ loadCachedSchema env.fs = .ok none) :
    resolveSchemaIndex env =
      resolverDescribeTier env (if env.refreshCache then [] else [Ev.cacheRead]) := by
  unfold resolveSchemaIndex
  rw [hp]
  rcases hc with h | h
  · simp [h]
  · by_cases hr : env.refreshCache
    · simp [hr]
    · simp [hr, h]

/-- Sample tier when the detail response embeds list metadata and the write
succeeds: persist the normalization and return its index. -/
theorem sampleTier_meta_ok (env : REnv) (tr : List Ev) (lr : ItemsListRes)
    (l : ListInfo) (meta : ListMeta) (fid : String)
    (hl : env.itemsListRes = .ok lr)
    (hid : truthyStr ((lr.items.getD []).head?.bind Item.id) = some fid)
    (hi : env.itemsInfoRes = .ok { list := some l })
    (hm : l.list_metadata = some meta)
    (hw : env.writeErr = none) :
    resolverSampleTier env tr =
      (.ok (some (buildSchemaIndex (env.normalizeMeta meta (l.id.getD env.listId)))),
       tr ++ [Ev.call "slackLists.items.list", Ev.call "slackLists.items.info",
         Ev.cacheWrite (env.normalizeMeta meta (l.id.getD env.listId))],
       { env.fs with canonical := .ok (env.normalizeMeta meta (l.id.getD env.listId)) }) := by
  unfold resolverSampleTier
  rw [hl]
  simp [hid, hi, hm, saveSchemaCacheE, hw]

/-- Sample tier without a truthy first item id: straight to inference. -/
theorem sampleTier_to_inference_noid (env : REnv) (tr : List Ev) (lr : ItemsListRes)
    (hl : env.itemsListRes = .ok lr)
    (hid : truthyStr ((lr.items.getD []).head?.bind Item.id) = none) :
    resolverSampleTier env tr =
      resolverInference env (tr ++ [Ev.call "slackLists.items.list"])
        (lr.items.getD []) := by
  unfold resolverSampleTier
  rw [hl]
  simp [hid]

/-- Inference tier on a zero-column inferred schema: soft no-schema result. -/
theorem inference_empty (env : REnv) (tr : List Ev) (items : List Item)
    (h : (env.inferSchemaFromItems items).columns = []) :
    resolverInference env tr items = (.ok none, tr, env.fs) := by
  unfold resolverInference
  simp [h]

/-- Inference tier on a nonempty inferred schema with working cache: merge,
persist, return the merged index. -/
theorem inference_nonempty (env : REnv) (tr : List Ev) (items : List Item)
    (cached : Option Schema)
    (h : (env.inferSchemaFromItems items).columns ≠ [])
    (hload : loadCachedSchema env.fs = .ok cached)
    (hw : env.writeErr = none) :
    resolverInference env tr items =
      (.ok (some (buildSchemaIndex
          (mergeSchemasOpt cached (env.inferSchemaFromItems items)))),
       tr ++ [Ev.cacheRead,
         Ev.cacheWrite (mergeSchemasOpt cached (env.inferSchemaFromItems items))],
       { env.fs with canonical := Except.ok (mergeSchemasOpt cached (env.inferSchemaFromItems items)) }) := by
  unfold resolverInference updateSchemaCacheT
  unfold loadCachedSchema at hload
  rw [hload]
  simp [h, saveSchemaCacheE, hw, List.isEmpty_iff]

/-- The error the resolver classifies as method-unsupported. -/
def unknownMethodErr : JsError := { slackData := some "unknown_method" }

/-- A remote failure with no Slack classification (plain transport error). -/
def unclassifiedErr : JsError := { code := none, slackData := none }

/-- A remote failure carrying a Slack classification other than
unknown_method. -/
def fatalErr : JsError := { slackData := some "restricted_action" }

/-- One-row items page whose first item has id I1. -/
def lrOne : ItemsListRes := { items := some [{ id := some "I1" }] }

/-- Base concrete resolver environment for the witnesses; individual witnesses
override fields. -/
def baseEnv : REnv :=
  { listId := "L1"
    loadSchemaFromFile := fun _ => .ok exSchema
    fs := fsEmpty
    describeRes := .error unknownMethodErr
    itemsListRes := .ok { items := some [] }
    itemsInfoRes := .error unclassifiedErr
    normalizeDescribe := fun _ => exSchema
    normalizeMeta := fun _ _ => exSchema
    inferSchemaFromItems := fun _ => exSchema2 }

/-- Concrete environment with a populated canonical cache file. -/
def cenvCache : REnv :=
  { baseEnv with fs := { canonical := Except.ok exSchema, legacy := Except.error enoentErr } }

/-- Concrete environment whose item-detail call fails without classification. -/
def cenvC3 : REnv := { baseEnv with itemsListRes := Except.ok lrOne }

/-- Concrete environment whose item-detail call fails with a Slack
classification other than unknown_method. -/
def cenvC3b : REnv :=
  { baseEnv with itemsListRes := Except.ok lrOne, itemsInfoRes := Except.error fatalErr }

/-- Concrete environment with the schema-path environment variable set. -/
def cenvOverride : REnv := { baseEnv with envPath := some "/tmp/schema.json" }

/-- Concrete environment whose inference produces a zero-column schema. -/
def cenvC7z : REnv :=
  { baseEnv with inferSchemaFromItems := fun _ => { list_id := "L1", columns := [] } }

/-- C1: the resolver attempts its tiers in order.  (1) A truthy resolved schema
file path is loaded and indexed, the trace holding no cache read, no cache
write and no remote call.  (2) Without refreshCache, a cached schema is
indexed and returned with no remote call and no write.  (3) Otherwise the
describe call is the first remote call and an ok response is normalized,
persisted and returned.  (4) Next a single items page is listed and the first
item detail fetched; embedded list metadata is normalized, persisted and
returned.  (5) Finally the inferred schema is merged into the cache and the
merged index returned. -/
theorem C1_resolver_tier_order (env : REnv) :
    (∀ p, truthyStr (resolveSchemaPath env.cliPath env.envPath) = some p →
      resolveSchemaIndex env =
        ((env.loadSchemaFromFile p).map (fun s => some (buildSchemaIndex s)),
         [Ev.fileLoad p], env.fs)) ∧
    (∀ s, truthyStr (resolveSchemaPath env.cliPath env.envPath) = none →
      env.refreshCache = false → loadCachedSchema env.fs = .ok (some s) →
      resolveSchemaIndex env =
        (.ok (some (buildSchemaIndex s)), [Ev.cacheRead], env.fs)) ∧
    (∀ r, truthyStr (resolveSchemaPath env.cliPath env.envPath) = none →
      (env.refreshCache = true ∨ loadCachedSchema env.fs = .ok none) →
      env.describeRes = .ok r → r.ok = true → env.writeErr = none →
      resolveSchemaIndex env =
        (.ok (some (buildSchemaIndex (env.normalizeDescribe r))),
         (if env.refreshCache then [] else [Ev.cacheRead]) ++
           [Ev.call "slackLists.info", Ev.cacheWrite (env.normalizeDescribe r)],
         { env.fs with canonical := Except.ok (env.normalizeDescribe r) })) ∧
    (∀ de lr l meta fid,
      truthyStr (resolveSchemaPath env.cliPath env.envPath) = none →
      (env.refreshCache = true ∨ loadCachedSchema env.fs = .ok none) →
      env.describeRes = .error de → de.slackData = some "unknown_method" →
      env.itemsListRes = .ok lr →
      truthyStr ((lr.items.getD []).head?.bind Item.id) = some fid →
      env.itemsInfoRes = .ok { list := some l } → l.list_metadata = some meta →
      env.writeErr = none →
      resolveSchemaIndex env =
        (.ok (some (buildSchemaIndex (env.normalizeMeta meta (l.id.getD env.listId)))),
         (if env.refreshCache then [] else [Ev.cacheRead]) ++
           [Ev.call "slackLists.info", Ev.call "slackLists.items.list",
            Ev.call "slackLists.items.info",
            Ev.cacheWrite (env.normalizeMeta meta (l.id.getD env.listId))],
         { env.fs with canonical := Except.ok (env.normalizeMeta meta (l.id.getD env.listId)) })) ∧
    (∀ de lr cached,
      truthyStr (resolveSchemaPath env.cliPath env.envPath) = none →
      (env.refreshCache = true ∨ loadCachedSchema env.fs = .ok none) →
      env.describeRes = .error de → de.slackData = some "unknown_method" →
      env.itemsListRes = .ok lr →
      truthyStr ((lr.items.getD []).head?.bind Item.id) = none →
      (env.inferSchemaFromItems (lr.items.getD [])).columns ≠ [] →
      loadCachedSchema env.fs = .ok cached → env.writeErr = none →
      resolveSchemaIndex env =
        (.ok (some (buildSchemaIndex (mergeSchemasOpt cached (env.inferSchemaFromItems (lr.items.getD []))))),
         (if env.refreshCache then [] else [Ev.cacheRead]) ++
           [Ev.call "slackLists.info", Ev.call "slackLists.items.list", Ev.cacheRead,
            Ev.cacheWrite (mergeSchemasOpt cached (env.inferSchemaFromItems (lr.items.getD [])))],
         { env.fs with canonical := Except.ok (mergeSchemasOpt cached (env.inferSchemaFromItems (lr.items.getD []))) })) := by
  refine ⟨?_, ?_, ?_, ?_, ?_⟩
  · intro p hp
    unfold resolveSchemaIndex
    rw [hp]
    cases hld : env.loadSchemaFromFile p <;> simp [hld, Except.map]
  · intro s hp hr hc
    unfold resolveSchemaIndex
    rw [hp]
    simp [hr, hc]
  · intro r hp hcache hd hok hw
    rw [resolver_to_describe env hp hcache, describeTier_ok_eq env _ r hd hok hw]
  · intro de lr l meta fid hp hcache hd hde hl hid hi hm hw
    rw [resolver_to_describe env hp hcache, describeTier_fall_err env _ de hd hde,
      sampleTier_meta_ok env _ lr l meta fid hl hid hi hm hw]
    simp
  · intro de lr cached hp hcache hd hde hl hid hinf hload hw
    rw [resolver_to_describe env hp hcache, describeTier_fall_err env _ de hd hde,
      sampleTier_to_inference_noid env _ lr hl hid,
      inference_nonempty env _ (lr.items.getD []) cached hinf hload hw]
    simp

/-- C1 witness: on the concrete environment with a populated canonical cache,
the resolver takes the cache tier and returns the cached schema index after a
single cache read. -/
theorem C1_resolver_tier_order_witness :
    truthyStr (resolveSchemaPath cenvCache.cliPath cenvCache.envPath) = none ∧
    cenvCache.refreshCache = false ∧
    loadCachedSchema cenvCache.fs = .ok (some exSchema) ∧
    resolveSchemaIndex cenvCache =
      (.ok (some (buildSchemaIndex exSchema)), [Ev.cacheRead], cenvCache.fs) :=
  ⟨rfl, rfl, rfl, (C1_resolver_tier_order cenvCache).2.1 exSchema rfl rfl rfl⟩

/-- C7: a zero-column inferred schema makes the inference tier resolve to the
no-schema result rather than raise an error, and a nonempty inferred schema is
merged into the cache via updateSchemaCache with the merged index returned;
the last conjunct lifts the zero-column case to resolveSchemaIndex itself. -/
theorem C7_inference_soft_fail (env : REnv) (tr : List Ev) (items : List Item) :
    ((env.inferSchemaFromItems items).columns = [] →
      resolverInference env tr items = (.ok none, tr, env.fs)) ∧
    (∀ cached, (env.inferSchemaFromItems items).columns ≠ [] →
      loadCachedSchema env.fs = .ok cached → env.writeErr = none →
      resolverInference env tr items =
        (.ok (some (buildSchemaIndex (mergeSchemasOpt cached (env.inferSchemaFromItems items)))),
         tr ++ [Ev.cacheRead, Ev.cacheWrite (mergeSchemasOpt cached (env.inferSchemaFromItems items))],
         { env.fs with canonical := Except.ok (mergeSchemasOpt cached (env.inferSchemaFromItems items)) })) ∧
    (∀ de lr, truthyStr (resolveSchemaPath env.cliPath env.envPath) = none →
      env.refreshCache = false → loadCachedSchema env.fs = .ok none →
      env.describeRes = .error de → de.slackData = some "unknown_method" →
      env.itemsListRes = .ok lr →
      truthyStr ((lr.items.getD []).head?.bind Item.id) = none →
      (env.inferSchemaFromItems (lr.items.getD [])).columns = [] →
      (resolveSchemaIndex env).1 = .ok none) := by
  refine ⟨?_, ?_, ?_⟩
  · intro h
    exact inference_empty env tr items h
  · intro cached h hload hw
    exact inference_nonempty env tr items cached h hload hw
  · intro de lr hp hr hc hd hde hl hid hinf
    rw [resolver_to_describe env hp (Or.inr hc), describeTier_fall_err env _ de hd hde,
      sampleTier_to_inference_noid env _ lr hl hid,
      inference_empty env _ (lr.items.getD []) hinf]

/-- C7 witness: with an empty items page and inference producing a zero-column
schema, resolveSchemaIndex returns the no-schema result. -/
theorem C7_inference_soft_fail_witness :
    truthyStr (resolveSchemaPath cenvC7z.cliPath cenvC7z.envPath) = none ∧
    cenvC7z.refreshCache = false ∧
    loadCachedSchema cenvC7z.fs = .ok none ∧
    cenvC7z.describeRes = .error unknownMethodErr ∧
    unknownMethodErr.slackData = some "unknown_method" ∧
    cenvC7z.itemsListRes = .ok { items := some [] } ∧
    (cenvC7z.inferSchemaFromItems []).columns = [] ∧
    (resolveSchemaIndex cenvC7z).1 = .ok none :=
  ⟨rfl, rfl, rfl, rfl, rfl, rfl, rfl,
    (C7_inference_soft_fail cenvC7z [] []).2.2 unknownMethodErr { items := some [] }
      rfl rfl rfl rfl rfl rfl rfl rfl⟩

/-- C3 counterexample: with the detail call failing without any Slack error
classification (a plain transport failure), resolveSchemaIndex does not
propagate the failure as the claim requires: it falls through to inference
and resolves successfully. -/
theorem C3_counterexample :
    cenvC3.itemsInfoRes = .error unclassifiedErr ∧
    (resolveSchemaIndex cenvC3).1 = .ok (some (buildSchemaIndex exSchema2)) ∧
    (resolveSchemaIndex cenvC3).1 ≠ .error unclassifiedErr :=
  ⟨rfl, rfl, by decide⟩

/-- C3 amended: in the sample-item tier a detail-call failure classified
unknown_method or carrying no Slack classification falls through to the
inference tier; a failure carrying any other Slack classification is fatal
and propagates unchanged out of resolveSchemaIndex. -/
theorem C3_detail_error_routing (env : REnv) (tr : List Ev) (lr : ItemsListRes)
    (fid : String) (e : JsError)
    (hl : env.itemsListRes = .ok lr)
    (hid : truthyStr ((lr.items.getD []).head?.bind Item.id) = some fid)
    (hi : env.itemsInfoRes = .error e) :
    ((e.slackData = none ∨ e.slackData = some "unknown_method") →
      resolverSampleTier env tr =
        resolverInference env
          (tr ++ [Ev.call "slackLists.items.list", Ev.call "slackLists.items.info"])
          (lr.items.getD [])) ∧
    (∀ m, e.slackData = some m → m ≠ "unknown_method" →
      resolverSampleTier env tr =
        (.error e,
         tr ++ [Ev.call "slackLists.items.list", Ev.call "slackLists.items.info"],
         env.fs)) ∧
    (∀ m de, e.slackData = some m → m ≠ "unknown_method" →
      truthyStr (resolveSchemaPath env.cliPath env.envPath) = none →
      env.refreshCache = false → loadCachedSchema env.fs = .ok none →
      env.describeRes = .error de → de.slackData = some "unknown_method" →
      (resolveSchemaIndex env).1 = .error e) := by
  have hfatal : ∀ m, e.slackData = some m → m ≠ "unknown_method" → ∀ tr2,
      resolverSampleTier env tr2 =
        (.error e,
         tr2 ++ [Ev.call "slackLists.items.list", Ev.call "slackLists.items.info"],
         env.fs) := by
    intro m hm hne tr2
    unfold resolverSampleTier
    rw [hl]
    simp [hid, hi, hm, hne]
  refine ⟨?_, ?_, ?_⟩
  · intro h
    unfold resolverSampleTier
    rw [hl]
    rcases h with h | h <;> simp [hid, hi, h]
  · intro m hm hne
    exact hfatal m hm hne tr
  · intro m de hm hne hp hr hc hd hde
    rw [resolver_to_describe env hp (Or.inr hc), describeTier_fall_err env _ de hd hde,
      hfatal m hm hne _]

/-- C3 amended witness: a detail failure classified restricted_action is fatal
in the sample tier. -/
theorem C3_detail_error_routing_witness :
    cenvC3b.itemsListRes = .ok lrOne ∧
    truthyStr ((lrOne.items.getD []).head?.bind Item.id) = some "I1" ∧
    cenvC3b.itemsInfoRes = .error fatalErr ∧
    fatalErr.slackData = some "restricted_action" ∧
    ("restricted_action" ≠ "unknown_method") ∧
    resolverSampleTier cenvC3b [] =
      (.error fatalErr,
       [] ++ [Ev.call "slackLists.items.list", Ev.call "slackLists.items.info"],
       cenvC3b.fs) :=
  ⟨rfl, rfl, rfl, rfl, by decide,
    (C3_detail_error_routing cenvC3b [] lrOne "I1" fatalErr rfl rfl rfl).2.1
      "restricted_action" rfl (by decide)⟩

/-- C10: resolveSchemaPath returns the CLI path when present and otherwise the
SLACK_LIST_SCHEMA_PATH value, so with no CLI path and the variable set to a
nonempty path the resolver takes the override tier: it loads that file, and
its trace holds no cache read, no cache write and no remote call. -/
theorem C10_env_var_override (env : REnv) (p : String) :
    (∀ x e2, resolveSchemaPath (some x) e2 = some x) ∧
    (∀ e2, resolveSchemaPath none e2 = e2) ∧
    (env.cliPath = none → env.envPath = some p → p ≠ "" →
      resolveSchemaIndex env =
        ((env.loadSchemaFromFile p).map (fun s => some (buildSchemaIndex s)),
         [Ev.fileLoad p], env.fs)) := by
  refine ⟨fun x e2 => rfl, fun e2 => rfl, ?_⟩
  intro hc he hp
  have hres : truthyStr (resolveSchemaPath env.cliPath env.envPath) = some p := by
    rw [hc, he]
    simp [resolveSchemaPath, truthyStr, hp]
  unfold resolveSchemaIndex
  rw [hres]
  cases hld : env.loadSchemaFromFile p <;> simp [hld, Except.map]

/-- C10 witness: with the environment variable set to a nonempty path and no
CLI path, the resolver loads that file with a pure file-load trace. -/
theorem C10_env_var_override_witness :
    cenvOverride.cliPath = none ∧
    cenvOverride.envPath = some "/tmp/schema.json" ∧
    ("/tmp/schema.json" ≠ "") ∧
    resolveSchemaIndex cenvOverride =
      ((cenvOverride.loadSchemaFromFile "/tmp/schema.json").map
        (fun s => some (buildSchemaIndex s)),
       [Ev.fileLoad "/tmp/schema.json"], cenvOverride.fs) :=
  ⟨rfl, rfl, by decide,
    (C10_env_var_override cenvOverride "/tmp/schema.json").2.2 rfl rfl (by decide)⟩

/-- A slackLists.items.info response as the items get command reads it: the
possibly embedded list object and the item or record payload. -/
structure GetRes where
  list : Option ListInfo := none
  item : Option Item := none
  record : Option Item := none
deriving DecidableEq, Repr

/-- Oracle environment for the items get command action: the primary call
outcome, the cache state, the write outcome, the outcome of the missing
inferSchemaFromItems on the fetched item (it may itself fail while processing
field shapes), and the abstract normalizeSchema for embedded metadata. -/
structure SyncEnv where
  listId : String
  fs : FsState
  writeErr : Option JsError := none
  inferRes : Except JsError Schema
  itemsInfoRes : Except JsError GetRes
  normalizeMeta : ListMeta → String → Schema

/-- syncSchemaCache (src/commands/items.ts lines 721-728): infer a schema from
the fetched items and merge it into the cache through updateSchemaCache; every
failure of either step is swallowed, the cache state advancing only when both
steps succeed. -/
def syncSchemaCache (wk : Option JsError) (fs : FsState)
    (inferRes : Except JsError Schema) : Except JsError FsState :=
  match inferRes with
  | .error _ => .ok fs
  | .ok inferred =>
    match (updateSchemaCacheT wk fs inferred).1 with
    | .error _ => .ok fs
    | .ok (_, fs2) => .ok fs2

/-- Cache state after the metadata try-block of the items get action (lines
423-434): when the response embeds list metadata, attempt updateSchemaCache
and keep its new state on success; on any failure keep the old state. -/
def metaFs (env : SyncEnv) (res : GetRes) : FsState :=
  match res.list with
  | some l =>
    match l.list_metadata with
    | some meta =>
      match (updateSchemaCacheT env.writeErr env.fs (env.normalizeMeta meta (l.id.getD env.listId))).1 with
      | .ok (_, fs2) => fs2
      | .error _ => env.fs
    | none => env.fs
  | none => env.fs

/-- The items get command action (src/commands/items.ts lines 417-445): run
the primary detail call; then best-effort update the cache from embedded list
metadata; then, when an item or record payload is present, best-effort sync
the cache from it via syncSchemaCache; finally return the primary result. -/
def itemsGetAction (env : SyncEnv) : Except JsError (GetRes × FsState) :=
  match env.itemsInfoRes with
  | .error e => .error e
  | .ok res =>
    match res.item <|> res.record with
    | some _ =>
      match syncSchemaCache env.writeErr (metaFs env res) env.inferRes with
      | .ok fs2 => .ok (res, fs2)
      | .error e => .error e
    | none => .ok (res, metaFs env res)

/-- The best-effort sync never produces an error, whatever the oracle does. -/
theorem sync_never_fails (wk : Option JsError) (fs : FsState)
    (ir : Except JsError Schema) : ∃ fs2, syncSchemaCache wk fs ir = .ok fs2 := by
  unfold syncSchemaCache
  cases ir with
  | error e => exact ⟨fs, rfl⟩
  | ok inferred =>
    cases h : (updateSchemaCacheT wk fs inferred).1 with
    | error e => exact ⟨fs, by simp [h]⟩
    | ok p => exact ⟨p.2, by simp [h]⟩

/-- C8: the opportunistic cache updates after a generic item read swallow
every cache and schema-processing failure - syncSchemaCache never raises and
the items get action returns the primary result whenever the primary call
succeeds, whatever the cache oracle does - while in the ordinary cache
operation updateSchemaCache a non-absent read failure and a write failure
both propagate. -/
theorem C8_best_effort_sync (wk : Option JsError) (fs : FsState)
    (ir : Except JsError Schema) (env : SyncEnv) (cand : Schema) (e : JsError) :
    (∃ fs2, syncSchemaCache wk fs ir = .ok fs2) ∧
    (∀ res, env.itemsInfoRes = .ok res → ∃ fs2, itemsGetAction env = .ok (res, fs2)) ∧
    ((loadCachedSchemaT fs).1 = .error e → (updateSchemaCacheT wk fs cand).1 = .error e) ∧
    (∀ cached, (loadCachedSchemaT fs).1 = .ok cached →
      (updateSchemaCacheT (some e) fs cand).1 = .error e) := by
  refine ⟨sync_never_fails wk fs ir, ?_, ?_, ?_⟩
  · intro res h
    unfold itemsGetAction
    rw [h]
    cases hio : res.item <|> res.record with
    | none => exact ⟨metaFs env res, by simp [hio]⟩
    | some it =>
      obtain ⟨fs2, hs⟩ := sync_never_fails env.writeErr (metaFs env res) env.inferRes
      exact ⟨fs2, by simp [hio, hs]⟩
  · intro h
    unfold updateSchemaCacheT
    simp [h]
  · intro cached h
    unfold updateSchemaCacheT
    simp [h, saveSchemaCacheE]

/-- A cache whose canonical file fails to read with a non-ENOENT error. -/
def eaccesErr : JsError := { code := some "EACCES" }

/-- Cache state whose canonical read fails with EACCES. -/
def fsBad : FsState := { canonical := .error eaccesErr, legacy := .ok exSchema }

/-- Concrete items get environment over the broken cache. -/
def senv0 : SyncEnv :=
  { listId := "L1"
    fs := fsBad
    inferRes := .ok exSchema2
    itemsInfoRes := .ok { item := some { id := some "I1" } }
    normalizeMeta := fun _ _ => exSchema }

/-- C8 witness: over a cache whose read fails with EACCES, updateSchemaCache
propagates the failure, yet the items get action still returns its primary
result with the cache untouched. -/
theorem C8_best_effort_sync_witness :
    (loadCachedSchemaT fsBad).1 = .error eaccesErr ∧
    (updateSchemaCacheT none fsBad exSchema2).1 = .error eaccesErr ∧
    itemsGetAction senv0 = .ok ({ item := some { id := some "I1" } }, fsBad) :=
  ⟨rfl,
    (C8_best_effort_sync none fsBad (.ok exSchema2) senv0 exSchema2 eaccesErr).2.2.1 rfl,
    rfl⟩

/-- A JS scalar stored in the generic fallback value property. -/
inductive JScalar
  | str (s : String)
  | num (n : Int)
deriving DecidableEq, Repr

/-- A message array entry: either a bare string or an object with an optional
string value property. -/
inductive MsgEntry
  | mstr (s : String)
  | mobj (value : Option String)
deriving DecidableEq, Repr

/-- Innermost rich-text node: an optional string text property. -/
structure RNode where
  text : Option String := none
deriving DecidableEq, Repr

/-- Middle rich-text element: an optional inner elements array. -/
structure RElem where
  elements : Option (List RNode) := none
deriving DecidableEq, Repr

/-- Top rich-text block: an optional elements array. -/
structure RBlock where
  elements : Option (List RElem) := none
deriving DecidableEq, Repr

/-- An item field as the compact-item extractors inspect it: each tagged
payload is present exactly when the corresponding property holds a value of
the shape the code tests for, plus the generic fallback value. -/
structure FieldObj where
  text : Option String := none
  rich_text : Option (List RBlock) := none
  select : Option (List String) := none
  user : Option (List String) := none
  rating : Option (List Int) := none
  date : Option (List String) := none
  message : Option (List MsgEntry) := none
  value : Option JScalar := none
deriving DecidableEq, Repr

/-- String-valued fallback of a field: the value property when it is a
string, as tested by typeof checks. -/
def FieldObj.valueStr (f : FieldObj) : Option String :=
  match f.value with
  | some (.str s) => some s
  | _ => none

/-- Innermost loop of extractText: first node whose text property is a
string. -/
def rnodeFirst : List RNode → Option String
  | [] => none
  | n :: ns =>
    match n.text with
    | some t => some t
    | none => rnodeFirst ns

/-- Middle loop of extractText over the elements of one block. -/
def relemFirst : List RElem → Option String
  | [] => none
  | e :: es =>
    match e.elements with
    | some inner =>
      match rnodeFirst inner with
      | some t => some t
      | none => relemFirst es
    | none => relemFirst es

/-- Outer loop of extractText over the rich_text blocks. -/
def rblockFirst : List RBlock → Option String
  | [] => none
  | b :: bs =>
    match b.elements with
    | some els =>
      match relemFirst els with
      | some t => some t
      | none => rblockFirst bs
    | none => rblockFirst bs

/-- Continuation of extractText after the plain-text check: walk rich_text,
else fall back to a string value. -/
def extractTextAfter (f : FieldObj) : Option String :=
  match f.rich_text with
  | some blocks =>
    match rblockFirst blocks with
    | some t => some t
    | none => f.valueStr
  | none => f.valueStr

/-- extractText (src/commands/items.ts lines 960-1001): a nonblank string
text property wins; else the first text leaf of the rich_text walk; else a
string fallback value; else null. -/
def extractText (field : Option FieldObj) : Option String :=
  match field with
  | none => none
  | some f =>
    match f.text with
    | some t => if t.trim = "" then extractTextAfter f else some t
    | none => extractTextAfter f

/-- extractSelect (lines 1003-1015): the tagged select array, a singleton
collapsing to its sole element; else a string fallback; else null. -/
def extractSelect (field : Option FieldObj) : Option (String ⊕ List String) :=
  match field with
  | none => none
  | some f =>
    match f.select with
    | some [x] => some (Sum.inl x)
    | some l => some (Sum.inr l)
    | none =>
      match f.valueStr with
      | some v => some (Sum.inl v)
      | none => none

/-- extractUsers (lines 1017-1029): same shape as extractSelect over the user
payload. -/
def extractUsers (field : Option FieldObj) : Option (String ⊕ List String) :=
  match field with
  | none => none
  | some f =>
    match f.user with
    | some [x] => some (Sum.inl x)
    | some l => some (Sum.inr l)
    | none =>
      match f.valueStr with
      | some v => some (Sum.inl v)
      | none => none

/-- Number coercion of a string fallback as extractRating performs it,
restricted to the integer literals the model represents. -/
def numOfString (s : String) : Option Int := s.toInt?

/-- extractRating (lines 1031-1047): the first element of a nonempty tagged
rating array; else a numeric fallback value; else a numeric parse of a string
fallback; else null. -/
def extractRating (field : Option FieldObj) : Option Int :=
  match field with
  | none => none
  | some f =>
    match f.rating with
    | some (x :: _) => some x
    | _ =>
      match f.value with
      | some (.num n) => some n
      | some (.str s) => numOfString s
      | none => none

/-- extractDate (lines 1049-1061): the first element of a nonempty tagged
date array; else a string fallback; else null. -/
def extractDate (field : Option FieldObj) : Option String :=
  match field with
  | none => none
  | some f =>
    match f.date with
    | some (x :: _) => some x
    | _ => f.valueStr

/-- extractMessage (lines 1063-1084): the first entry of a nonempty tagged
message array when it is a string or carries a string value; else a string
fallback; else null. -/
def extractMessage (field : Option FieldObj) : Option String :=
  match field with
  | none => none
  | some f =>
    match f.message with
    | some (entry :: _) =>
      match entry with
      | .mstr s => some s
      | .mobj (some v) => some v
      | .mobj none => f.valueStr
    | _ => f.valueStr

/-- Depth-first list of the text leaves of a rich_text tree, in traversal
order. -/
def dfLeaves (blocks : List RBlock) : List String :=
  blocks.flatMap (fun b =>
    (b.elements.getD []).flatMap (fun e =>
      (e.elements.getD []).filterMap RNode.text))

/-- Modelled from the claim: the date extraction C6 describes, preferring the
tagged array, collapsing a singleton to its element and returning a
multi-element array whole. -/
def extractDateClaimed (field : Option FieldObj) : Option (String ⊕ List String) :=
  match field with
  | none => none
  | some f =>
    match f.date with
    | some [x] => some (Sum.inl x)
    | some (x :: y :: rest) => some (Sum.inr (x :: y :: rest))
    | _ =>
      match f.valueStr with
      | some v => some (Sum.inl v)
      | none => none

/-- Two-date field used by the C6 counterexample. -/
def fTwoDates : FieldObj := { date := some ["2024-01-01", "2024-02-02"] }

/-- C6 counterexample: on a field whose date payload has two entries the claim
requires the whole array back, but extractDate - whose return type is a
nullable string - projects only the first element. -/
theorem C6_counterexample :
    extractDateClaimed (some fTwoDates) =
      some (Sum.inr ["2024-01-01", "2024-02-02"]) ∧
    extractDate (some fTwoDates) = some "2024-01-01" ∧
    extractDateClaimed (some fTwoDates) ≠ some (Sum.inl "2024-01-01") :=
  ⟨rfl, rfl, by decide⟩

/-- The innermost extractText loop returns the first string text property. -/
theorem rnodeFirst_eq (ns : List RNode) :
    rnodeFirst ns = (ns.filterMap RNode.text).head? := by
  induction ns with
  | nil => rfl
  | cons n ns ih =>
    unfold rnodeFirst
    cases h : n.text with
    | some t => simp [List.filterMap_cons, h]
    | none => simp [List.filterMap_cons, h, ih]

/-- The middle extractText loop returns the head of the per-element
flattening. -/
theorem relemFirst_eq (es : List RElem) :
    relemFirst es =
      (es.flatMap (fun e => (e.elements.getD []).filterMap RNode.text)).head? := by
  induction es with
  | nil => rfl
  | cons e es ih =>
    unfold relemFirst
    cases h : e.elements with
    | none => simp [h, List.flatMap_cons, ih]
    | some inner =>
      dsimp only
      rw [rnodeFirst_eq]
      cases hcase : inner.filterMap RNode.text with
      | nil => simp [h, List.flatMap_cons, hcase, ih]
      | cons a l => simp [h, List.flatMap_cons, hcase]

/-- The outer extractText loop returns the first depth-first text leaf. -/
theorem rblockFirst_eq (bs : List RBlock) :
    rblockFirst bs = (dfLeaves bs).head? := by
  induction bs with
  | nil => rfl
  | cons b bs ih =>
    unfold rblockFirst dfLeaves
    cases h : b.elements with
    | none =>
      simp only [h, Option.getD_none, List.flatMap_nil, List.flatMap_cons,
        List.nil_append]
      exact ih
    | some els =>
      dsimp only
      rw [relemFirst_eq]
      cases hcase : els.flatMap (fun e => (e.elements.getD []).filterMap RNode.text) with
      | nil =>
        simp only [h, Option.getD_some, List.flatMap_cons, hcase, List.nil_append,
          List.head?_nil]
        exact ih
      | cons a l => simp [h, List.flatMap_cons, hcase]

/-- The all-absent field. -/
def emptyField : FieldObj := {}

/-- Singleton-select field whose fallback value would disagree. -/
def fSel : FieldObj := { select := some ["done"], value := some (.str "ignored") }

/-- C6 amended: for select and user payloads the tagged array is preferred
over the generic fallback, a singleton collapsing to its sole element and any
other array returned whole; for rating and date payloads a nonempty tagged
array projects its first entry as a scalar; for a nonempty message payload
the first entry is projected when it is a string or carries a string value,
and otherwise the string fallback is used; for rich text, with no plain text
property the first depth-first text leaf of the block tree is returned, else
the string fallback; every extractor returns null when the field or any
projectable value is absent. -/
theorem C6_extract_projection (f : FieldObj) :
    (∀ l, f.select = some l → extractSelect (some f) =
      (match l with
       | [x] => some (Sum.inl x)
       | _ => some (Sum.inr l))) ∧
    (∀ l, f.user = some l → extractUsers (some f) =
      (match l with
       | [x] => some (Sum.inl x)
       | _ => some (Sum.inr l))) ∧
    (∀ x l, f.rating = some (x :: l) → extractRating (some f) = some x) ∧
    (∀ x l, f.date = some (x :: l) → extractDate (some f) = some x) ∧
    (∀ e l, f.message = some (e :: l) → extractMessage (some f) =
      (match e with
       | MsgEntry.mstr s => some s
       | MsgEntry.mobj (some v) => some v
       | MsgEntry.mobj none => f.valueStr)) ∧
    (∀ blocks, f.text = none → f.rich_text = some blocks →
      extractText (some f) =
        (match (dfLeaves blocks).head? with
         | some t => some t
         | none => f.valueStr)) ∧
    (extractText none = none ∧ extractSelect none = none ∧ extractUsers none = none ∧
      extractRating none = none ∧ extractDate none = none ∧ extractMessage none = none) ∧
    (extractText (some emptyField) = none ∧ extractSelect (some emptyField) = none ∧
      extractUsers (some emptyField) = none ∧ extractRating (some emptyField) = none ∧
      extractDate (some emptyField) = none ∧ extractMessage (some emptyField) = none) := by
  refine ⟨?_, ?_, ?_, ?_, ?_, ?_, ⟨rfl, rfl, rfl, rfl, rfl, rfl⟩, ⟨rfl, rfl, rfl, rfl, rfl, rfl⟩⟩
  · intro l h
    unfold extractSelect
    dsimp only
    rw [h]
    match l with
    | [] => rfl
    | [x] => rfl
    | x :: y :: rest => rfl
  · intro l h
    unfold extractUsers
    dsimp only
    rw [h]
    match l with
    | [] => rfl
    | [x] => rfl
    | x :: y :: rest => rfl
  · intro x l h
    unfold extractRating
    dsimp only
    rw [h]
  · intro x l h
    unfold extractDate
    dsimp only
    rw [h]
  · intro e l h
    unfold extractMessage
    dsimp only
    rw [h]
  · intro blocks ht hr
    unfold extractText extractTextAfter
    dsimp only
    rw [ht, hr]
    dsimp only
    rw [rblockFirst_eq]

/-- C6 witness: a singleton select payload collapses to its sole element even
when the generic fallback value disagrees. -/
theorem C6_extract_projection_witness :
    fSel.select = some ["done"] ∧
    extractSelect (some fSel) = some (Sum.inl "done") :=
  ⟨rfl, (C6_extract_projection fSel).1 ["done"] rfl⟩

/-- Candidate schema that redefines column c1 with a conflicting type and
brings a new column c2. -/
def exConflict : Schema :=
  { list_id := "L1"
    columns := [{ id := "c1", key := "Status", name := "State", type := "text" },
      { id := "c2", key := "Owner", name := "Owner", type := "user" }] }

/-- C2 witness: merging a candidate that redefines c1 leaves the existing c1
definition in place while appending the new c2 column. -/
theorem C2_merge_union_existing_wins_witness :
    lookupById exSchema "c1" =
      some { id := "c1", key := "Status", name := "State", type := "select" } ∧
    lookupById (mergeSchemas exSchema exConflict) "c1" =
      some { id := "c1", key := "Status", name := "State", type := "select" } ∧
    (mergeSchemas exSchema exConflict).columns.drop exSchema.columns.length =
      exConflict.columns.filter
        (fun c => !(exSchema.columns.any (fun c0 => c0.id == c.id))) :=
  ⟨rfl,
    (C2_merge_union_existing_wins exSchema exConflict).1 "c1"
      { id := "c1", key := "Status", name := "State", type := "select" } rfl,
    (C2_merge_union_existing_wins exSchema exConflict).2.2.2⟩
